import Mathlib

/-!
Shallow embedding of the EVready-Playbook rate-schedule evaluation code.

Namespace `App` models `src/app.py` (the Streamlit bill estimator):
applicability filters, the tiered/incremental accumulator
`calculate_incremental_charges`, the time-of-use distributor
`estimate_time_distribution`, and the energy / demand / percentage / tax
sections of `calculate_bill`.  Python floats are modelled as `ℚ`; the
wall-clock date used by `datetime.now()` is passed explicitly as the
evaluation month / day parameters.  `None`-able numeric columns become
`Option ℚ`; defaults applied by `dict.get(key, d)` are baked into the
field types exactly as the source applies them.

Namespace `BC` models `src/evready_playbook/bill_calculator.py`, and
namespace `BEC` models `src/bill_est_calculator.py`.
-/

namespace EVready

/-- Python's `str.lower()` modelled structurally over the character
list (the season strings compared in the source are plain ASCII). -/
def strLower (s : String) : String := ⟨s.data.map Char.toLower⟩

namespace App

/-- A database row's applicability attributes as read by `app.py`:
`MinKV` / `MaxKV` (absent = no voltage constraint), `Pending`
(default `False`), `Season` (absent or empty = unconstrained),
`StartDate` / `EndDate` (absent = unconstrained), dates modelled as
integer day ordinals. -/
structure Rec where
  minKV : Option ℚ
  maxKV : Option ℚ
  pending : Bool
  season : Option String
  startDate : Option ℤ
  endDate : Option ℤ

/-- `is_applicable(record, voltage)` from `app.py`: when both voltage
bounds and a context voltage are present, require
`MinKV ≤ voltage ≤ MaxKV`; a pending record is never applicable. -/
def is_applicable (r : Rec) (voltage : Option ℚ) : Bool :=
  let boundsOk :=
    match r.minKV, r.maxKV, voltage with
    | some lo, some hi, some v => decide (lo ≤ v) && decide (v ≤ hi)
    | _, _, _ => true
  boundsOk && !r.pending

/-- `get_current_season()` from `app.py`, with the wall-clock month
(`datetime.now().month`) passed explicitly. -/
def get_current_season (month : ℕ) : String :=
  if 3 ≤ month ∧ month ≤ 5 then "Spring"
  else if 6 ≤ month ∧ month ≤ 8 then "Summer"
  else if 9 ≤ month ∧ month ≤ 11 then "Fall"
  else "Winter"

/-- `is_in_season(record)` from `app.py`: a falsy (`None` or empty)
`Season` is always applicable, otherwise compare case-insensitively with
the current season. -/
def is_in_season (month : ℕ) (season : Option String) : Bool :=
  match season with
  | none => true
  | some s => if s = "" then true else strLower s == strLower (get_current_season month)

/-- `is_in_date_range(record)` from `app.py`: both dates present requires
the current date to lie inclusively between them; otherwise pass. -/
def is_in_date_range (today : ℤ) (r : Rec) : Bool :=
  match r.startDate, r.endDate with
  | some a, some b => decide (a ≤ today) && decide (today ≤ b)
  | _, _ => true

/-- The usage context of `calculate_bill` in `app.py` plus the wall clock
that the source reads via `datetime.now()`. -/
structure Ctx where
  voltage : Option ℚ
  month : ℕ
  today : ℤ
  usage : ℚ
  demand : ℚ

/-- The conjunction of filters applied in the energy / demand loops of
`calculate_bill`: `is_applicable and is_in_season and is_in_date_range`. -/
def passes (c : Ctx) (r : Rec) : Bool :=
  is_applicable r c.voltage && is_in_season c.month r.season && is_in_date_range c.today r

/-- One incremental-rate tier as consumed by
`calculate_incremental_charges`: start boundary (`StartKWh`/`StepMin`,
default 0), optional end boundary (`EndKWh`/`StepMax`, `None` = open
ended) and the tier rate. -/
structure Tier where
  start : ℚ
  stop : Option ℚ
  rate : ℚ

/-- Stable insertion of a tier into a list sorted ascending by `start`,
matching Python's stable `sorted(..., key=...)`. -/
def insertTier (t : Tier) : List Tier → List Tier
  | [] => [t]
  | u :: us => if t.start ≤ u.start then t :: u :: us else u :: insertTier t us

/-- Ascending stable sort by start boundary, as performed at the top of
`calculate_incremental_charges`. -/
def sortTiers : List Tier → List Tier
  | [] => []
  | t :: ts => insertTier t (sortTiers ts)

/-- The per-tier usage computed inside the loop of
`calculate_incremental_charges`: `remaining` for an open-ended tier,
else `min(remaining, end - start)`. -/
def tierWidth (rem : ℚ) (t : Tier) : ℚ :=
  match t.stop with
  | none => rem
  | some e => min rem (e - t.start)

/-- The accumulation loop of `calculate_incremental_charges`: a tier
whose computed usage is `≤ 0` terminates the loop (`break` in the
source); otherwise the tier contributes `width × rate`, the width is
subtracted from the remaining usage, and the loop stops once the
remaining usage is `≤ 0`. -/
def walk (rem : ℚ) : List Tier → ℚ
  | [] => 0
  | t :: ts =>
      let w := tierWidth rem t
      if w ≤ 0 then 0
      else w * t.rate + (if rem - w ≤ 0 then 0 else walk (rem - w) ts)

/-- `calculate_incremental_charges(usage, incremental_entries, ...)` from
`app.py`: sort the tiers ascending by start boundary, then run the
accumulation walk. -/
def calculate_incremental_charges (usage : ℚ) (entries : List Tier) : ℚ :=
  walk usage (sortTiers entries)

/-- Successive values of the `remaining_usage` variable of the walk, one
entry per executed subtraction. -/
def walkTrace (rem : ℚ) : List Tier → List ℚ
  | [] => []
  | t :: ts =>
      let w := tierWidth rem t
      if w ≤ 0 then []
      else (rem - w) :: (if rem - w ≤ 0 then [] else walkTrace (rem - w) ts)

/-- Decidable form of "every element of the list is nonnegative". -/
def allNonneg (l : List ℚ) : Bool :=
  l.all fun r => decide (0 ≤ r)

/-- Decidable form of "every tier rate in the list is nonnegative". -/
def allRatesNonneg (ts : List Tier) : Bool :=
  ts.all fun t => decide (0 ≤ t.rate)

/-- Per-tier well-formedness used by the spec's accumulation invariant:
a nonnegative start boundary and, when an end boundary exists,
`start ≤ end`. -/
def tierOK (t : Tier) : Bool :=
  decide (0 ≤ t.start) &&
    (match t.stop with
     | none => true
     | some e => decide (t.start ≤ e))

/-- Consecutive tiers are non-overlapping and ascending: each tier but
the last is closed and its end boundary is at most the next start. -/
def chainOK : List Tier → Bool
  | [] => true
  | [_] => true
  | a :: b :: ts =>
      (match a.stop with
       | none => false
       | some e => decide (e ≤ b.start)) && chainOK (b :: ts)

/-- The spec's precondition on a tier list: nonnegative, ascending,
non-overlapping boundaries. -/
def tiersWF (ts : List Tier) : Bool :=
  ts.all tierOK && chainOK ts

/-- A flat-rate row (`Energy_Table` / `Demand_Table` in `app.py`):
applicability attributes plus `RatekWh` / `RatekW` (with the source's
`None → 0` collapse already applied). -/
structure FlatRow where
  attrs : Rec
  rate : ℚ

/-- An `IncrementalEnergy_Table` / `IncrementalDemand_Table` row:
applicability attributes plus tier boundaries and rate. -/
structure IncRow where
  attrs : Rec
  tier : Tier

/-- The state of a `StartTime` / `EndTime` column as `app.py` sees it:
the key can be missing from the row dict (`absent`), present but `None`
or not a string (`nonstr`), or a parseable `HH:MM` string whose leading
hour is `h`.  The distinction matters because
`estimate_time_distribution`'s two loops treat a missing key
differently. -/
inductive TimeCol where
  | absent
  | nonstr
  | time (h : ℤ)

/-- An `EnergyTime_Table` row: applicability attributes, the
`StartTime` / `EndTime` columns, and `RatekWh`. -/
structure TouRow where
  attrs : Rec
  startTime : TimeCol
  endTime : TimeCol
  rate : ℚ

/-- The per-entry hour count of the `total_hours` loop of
`estimate_time_distribution` (`entry.get` with no default): a missing
or non-string (falsy / unparsable) time yields 24 hours, otherwise
`endHour - startHour`, plus 24 if that is `≤ 0` (overnight periods). -/
def touHours (e : TouRow) : ℤ :=
  match e.startTime, e.endTime with
  | TimeCol.time s, TimeCol.time en => let h := en - s; if h ≤ 0 then h + 24 else h
  | _, _ => 24

/-- The `total_hours` accumulator of `estimate_time_distribution`. -/
def totalHours (es : List TouRow) : ℤ :=
  (es.map touHours).sum

/-- The per-entry hour count of the allocation loop of
`estimate_time_distribution`, which reads the times as
`entry.get('StartTime', '00:00')` / `entry.get('EndTime', '24:00')`: a
*missing* key is replaced by hour 0 / hour 24 and parsed, while a
present non-string value still falls back to 24 hours; so a period with
exactly one time present is counted differently here than in the
`total_hours` loop. -/
def allocHours (e : TouRow) : ℤ :=
  let s := match e.startTime with
    | TimeCol.absent => TimeCol.time 0
    | x => x
  let en := match e.endTime with
    | TimeCol.absent => TimeCol.time 24
    | x => x
  match s, en with
  | TimeCol.time a, TimeCol.time b => let h := b - a; if h ≤ 0 then h + 24 else h
  | _, _ => 24

/-- A row on which the two hour computations of
`estimate_time_distribution` agree: both times parseable, both missing,
or at least one a non-string — everything except a row with exactly one
time present. -/
def timesAligned (e : TouRow) : Bool :=
  match e.startTime, e.endTime with
  | TimeCol.time _, TimeCol.time _ => true
  | TimeCol.absent, TimeCol.absent => true
  | TimeCol.nonstr, _ => true
  | _, TimeCol.nonstr => true
  | _, _ => false

/-- `estimate_time_distribution(total_usage, time_entries)` from
`app.py`, keeping only the per-period usage amounts: with no entries a
single synthetic full-usage bucket; otherwise each entry receives
`usage × allocHours / totalHours` (proportion 1 when
`totalHours ≤ 0`), the numerator coming from the allocation loop and
the denominator from the `total_hours` loop. -/
def estimate_time_distribution (usage : ℚ) (es : List TouRow) : List ℚ :=
  if es.isEmpty then [usage]
  else
    es.map fun e =>
      usage * (if 0 < totalHours es then (allocHours e : ℚ) / (totalHours es : ℚ) else 1)

/-- The flat energy loop of `calculate_bill` (`app.py`): sum
`rate × usage_kwh` over rows passing all three applicability filters. -/
def flatEnergyTotal (c : Ctx) (rows : List FlatRow) : ℚ :=
  (rows.map fun r => if passes c r.attrs then r.rate * c.usage else 0).sum

/-- The time-of-use energy section of `calculate_bill` (`app.py`):
distribute the usage over the applicable entries and charge each
distributed amount at the matching entry's rate. -/
def touEnergyTotal (c : Ctx) (rows : List TouRow) : ℚ :=
  let app := rows.filter fun r => passes c r.attrs
  if app.isEmpty then 0
  else ((estimate_time_distribution c.usage app).zip app |>.map
          fun p => p.1 * p.2.rate).sum

/-- The energy section of `calculate_bill` (`app.py`): the flat sum,
replaced by the tiered accumulation when applicable incremental entries
exist, and finally replaced by the time-of-use total whenever that total
is positive. -/
def energyTotal (c : Ctx) (flat : List FlatRow) (inc : List IncRow)
    (tou : List TouRow) : ℚ :=
  let et0 := flatEnergyTotal c flat
  let incApp := inc.filter fun r => passes c r.attrs
  let et1 :=
    if incApp.isEmpty then et0
    else calculate_incremental_charges c.usage (incApp.map IncRow.tier)
  let tt := touEnergyTotal c tou
  if 0 < tt then tt else et1

/-- The flat demand loop of `calculate_bill` (`app.py`): sum
`rate × demand_kw` over rows passing all three applicability filters. -/
def flatDemandTotal (c : Ctx) (rows : List FlatRow) : ℚ :=
  (rows.map fun r => if passes c r.attrs then r.rate * c.demand else 0).sum

/-- The category totals available when `calculate_bill` (`app.py`)
reaches its percentage/tax phase: the `charges` dict entries
`ServiceCharge`, `Energy`, `Demand`, `OtherCharges`. -/
structure Charges where
  service : ℚ
  energy : ℚ
  demand : ℚ
  other : ℚ

/-- `subtotal = sum(charges.values())` in `calculate_bill` (`app.py`). -/
def subtotalOf (c : Charges) : ℚ :=
  c.service + c.energy + c.demand + c.other

/-- The basis dispatch of the percentage loop in `calculate_bill`
(`app.py`): `energy_only` / `demand_only` / `service_only` select one
category total, anything else (including the default `all`) selects the
subtotal. -/
def pctBase (c : Charges) (subtotal : ℚ) (basis : String) : ℚ :=
  if basis = "energy_only" then c.energy
  else if basis = "demand_only" then c.demand
  else if basis = "service_only" then c.service
  else subtotal

/-- The basis dispatch of the tax loop in `calculate_bill` (`app.py`):
like the percentage dispatch but with an extra `subtotal` case, and with
the default `all` selecting `subtotal + percentage_total`. -/
def taxBase (c : Charges) (subtotal pctTotal : ℚ) (basis : String) : ℚ :=
  if basis = "energy_only" then c.energy
  else if basis = "demand_only" then c.demand
  else if basis = "service_only" then c.service
  else if basis = "subtotal" then subtotal
  else subtotal + pctTotal

/-- A `Percentages_Table` / `TaxInfo_Table` row in `app.py`:
applicability attributes, the percentage rate (`None → 0` collapsed) and
the `Basis` column with the source's `'all'` default applied. -/
structure BasisRow where
  attrs : Rec
  rate : ℚ
  basis : String

/-- The percentage loop of `calculate_bill` (`app.py`): over applicable
rows, accumulate `(rate / 100) ×` the row's basis amount. -/
def percentageTotal (c : Ctx) (ch : Charges) (rows : List BasisRow) : ℚ :=
  (rows.map fun r =>
      if is_applicable r.attrs c.voltage then
        (r.rate / 100) * pctBase ch (subtotalOf ch) r.basis
      else 0).sum

/-- The tax loop of `calculate_bill` (`app.py`): over applicable rows,
accumulate `(rate / 100) ×` the row's tax-basis amount, the percentage
total being available to the `all` basis. -/
def taxTotal (c : Ctx) (ch : Charges) (pctTot : ℚ) (rows : List BasisRow) : ℚ :=
  (rows.map fun r =>
      if is_applicable r.attrs c.voltage then
        (r.rate / 100) * taxBase ch (subtotalOf ch) pctTot r.basis
      else 0).sum

/-- The final assembly of `calculate_bill` (`app.py`):
`total_cost = subtotal + percentage_total + tax_total`, with the
percentage phase run strictly before the tax phase. -/
def billTotal (c : Ctx) (ch : Charges) (pctRows taxRows : List BasisRow) : ℚ :=
  let pt := percentageTotal c ch pctRows
  let tt := taxTotal c ch pt taxRows
  subtotalOf ch + pt + tt

end App

namespace BC

/-- The month lists of the season checks in `bill_calculator.py`. -/
def summer_months : List String :=
  ["June", "July", "August", "September"]

/-- The winter month list of the season checks in `bill_calculator.py`. -/
def winter_months : List String :=
  ["December", "January", "February", "March"]

/-- The `continue`-condition of the season checks in
`bill_calculator.py`: both the component's season string and the billing
month are non-empty, and the season is (case-insensitively) `summer`
with the month outside June–September, or `winter` with the month
outside December–March. -/
def seasonSkip (season month : String) : Bool :=
  !(season == "") && !(month == "") &&
    ((strLower season == "summer" && !(summer_months.contains month)) ||
     (strLower season == "winter" && !(winter_months.contains month)))

/-- An `IncrementalEnergy_Table` row as read by `bill_calculator.py`:
`StartkWh` (default 0), `EndkWh` (`None` = infinity), `RatekWh`
(`None → 0`) and the `Season` string (default empty). -/
structure BTier where
  startk : ℚ
  stopk : Option ℚ
  rate : ℚ
  season : String

/-- Stable insertion for the ascending sort by `StartkWh`. -/
def insertBTier (t : BTier) : List BTier → List BTier
  | [] => [t]
  | u :: us => if t.startk ≤ u.startk then t :: u :: us else u :: insertBTier t us

/-- The `sorted(..., key=StartkWh)` call of the tiered-energy loops in
`bill_calculator.py`. -/
def bsortTiers : List BTier → List BTier
  | [] => []
  | t :: ts => insertBTier t (bsortTiers ts)

/-- The per-tier usage of the tiered loops in `bill_calculator.py`:
`min(max(0, remaining - start), end - start)`, where an absent end
boundary is Python's `float('inf')` and so never the minimum. -/
def btierWidth (rem : ℚ) (t : BTier) : ℚ :=
  match t.stopk with
  | none => max 0 (rem - t.startk)
  | some e => min (max 0 (rem - t.startk)) (e - t.startk)

/-- The tiered-energy accumulation loop of `calculate_energy_charges`
(`bill_calculator.py`): out-of-season tiers are skipped; a tier with
positive computed usage contributes `width × rate` and reduces the
remaining usage, breaking once it reaches `≤ 0`; a tier with
non-positive width is passed over without stopping. -/
def bwalk (month : String) (rem : ℚ) : List BTier → ℚ
  | [] => 0
  | t :: ts =>
      if seasonSkip t.season month then bwalk month rem ts
      else
        let w := btierWidth rem t
        if 0 < w then
          w * t.rate + (if rem - w ≤ 0 then 0 else bwalk month (rem - w) ts)
        else bwalk month rem ts

/-- Successive values of the `remaining_kwh` variable of `bwalk`, one
entry per executed subtraction. -/
def bwalkTrace (month : String) (rem : ℚ) : List BTier → List ℚ
  | [] => []
  | t :: ts =>
      if seasonSkip t.season month then bwalkTrace month rem ts
      else
        let w := btierWidth rem t
        if 0 < w then
          (rem - w) :: (if rem - w ≤ 0 then [] else bwalkTrace month (rem - w) ts)
        else bwalkTrace month rem ts

/-- The tiered part of `calculate_energy_charges`
(`bill_calculator.py`): sort by `StartkWh`, then run the loop. -/
def tieredEnergy (usage : ℚ) (month : String) (ts : List BTier) : ℚ :=
  bwalk month usage (bsortTiers ts)

/-- Decidable form of "every tier start boundary is nonnegative". -/
def allStartsNonneg (ts : List BTier) : Bool :=
  ts.all fun t => decide (0 ≤ t.startk)

/-- Decidable form of "every tier rate in the list is nonnegative". -/
def allTierRatesNonneg (ts : List BTier) : Bool :=
  ts.all fun t => decide (0 ≤ t.rate)

/-- A row carrying a rate and a numeric range, as read by
`bill_calculator.py` from `Energy_Table` / `Demand_Table` (`MinkV`
default 0, `MaxkV` `None` = infinity) and `ReactiveDemand_Table`
(`Min` / `Max`). -/
structure RangeRow where
  rate : ℚ
  lo : ℚ
  hi : Option ℚ

/-- The range test `min ≤ x ≤ max` with an absent upper bound acting as
infinity. -/
def inRange (x : ℚ) (r : RangeRow) : Bool :=
  decide (r.lo ≤ x) &&
    (match r.hi with
     | none => true
     | some h => decide (x ≤ h))

/-- The flat-rate loops of `bill_calculator.py`: each row whose range
contains `x` contributes `rate × x`.  In the source the ranges of the
energy and demand loops are compared against the usage / demand value
itself, not against a voltage. -/
def rangeCharge (x : ℚ) (rows : List RangeRow) : ℚ :=
  (rows.map fun r => if inRange x r then r.rate * x else 0).sum

/-- An `EnergyTime_Table` row as read by `bill_calculator.py`:
`RatekWh`, `Description`, `TimeOfDay` and `Season` strings. -/
structure TRow where
  rate : ℚ
  desc : String
  timeOfDay : String
  season : String

/-- The period key `f"{description} ({time_of_day})"` used to look up the
caller's usage-by-period map. -/
def touKey (r : TRow) : String :=
  r.desc ++ " (" ++ r.timeOfDay ++ ")"

/-- The explicit-map branch of the time-of-use section of
`calculate_energy_charges`: out-of-season periods are skipped, each
remaining period is charged at its rate on the looked-up usage when that
usage is positive. -/
def touEnergyMap (month : String) (ubt : List (String × ℚ)) (rows : List TRow) : ℚ :=
  (rows.map fun r =>
      if seasonSkip r.season month then 0
      else
        let pu := ((ubt.find? fun p => p.1 == touKey r).map Prod.snd).getD 0
        if 0 < pu then r.rate * pu else 0).sum

/-- The even-split branch of the time-of-use section of
`calculate_energy_charges` (`bill_calculator.py`): the usage is divided
by the number of periods (before season filtering) and each in-season
period is charged on that share. -/
def touEnergyEven (usage : ℚ) (month : String) (rows : List TRow) : ℚ :=
  let per := if 0 < rows.length then usage / (rows.length : ℚ) else 0
  (rows.map fun r => if seasonSkip r.season month then 0 else r.rate * per).sum

/-- The full time-of-use section of `calculate_energy_charges`:
nothing when the table is empty; the map branch when the caller supplied
a (truthy, i.e. non-empty) usage-by-period map; otherwise the even
split. -/
def touEnergy (usage : ℚ) (month : String) (ubt : List (String × ℚ))
    (rows : List TRow) : ℚ :=
  if rows.isEmpty then 0
  else if ubt.isEmpty then touEnergyEven usage month rows
  else touEnergyMap month ubt rows

/-- `calculate_energy_charges(...)` from `bill_calculator.py` (total
only): the flat-range sum, the tiered accumulation and the time-of-use
section are all added together. -/
def calculate_energy_charges (usage : ℚ) (ubt : List (String × ℚ)) (month : String)
    (flatRows : List RangeRow) (tierRows : List BTier) (touRows : List TRow) : ℚ :=
  rangeCharge usage flatRows + tieredEnergy usage month tierRows +
    touEnergy usage month ubt touRows

/-- An `IncrementalDemand_Table` row as read by `bill_calculator.py`:
`StepMin` (default 0), `StepMax` (`None` = infinity), `RatekW`. -/
structure DStep where
  smin : ℚ
  smax : Option ℚ
  rate : ℚ

/-- Stable insertion for the ascending sort by `StepMin`. -/
def insertDStep (t : DStep) : List DStep → List DStep
  | [] => [t]
  | u :: us => if t.smin ≤ u.smin then t :: u :: us else u :: insertDStep t us

/-- The `sorted(..., key=StepMin)` call of the tiered-demand loops. -/
def dsortSteps : List DStep → List DStep
  | [] => []
  | t :: ts => insertDStep t (dsortSteps ts)

/-- The per-step usage of the tiered-demand loops:
`min(max(0, remaining - step_min), step_max - step_min)`. -/
def dstepWidth (rem : ℚ) (t : DStep) : ℚ :=
  match t.smax with
  | none => max 0 (rem - t.smin)
  | some e => min (max 0 (rem - t.smin)) (e - t.smin)

/-- The tiered-demand accumulation loop of `bill_calculator.py`: same
shape as the tiered-energy loop but without a season check. -/
def dwalk (rem : ℚ) : List DStep → ℚ
  | [] => 0
  | t :: ts =>
      let w := dstepWidth rem t
      if 0 < w then
        w * t.rate + (if rem - w ≤ 0 then 0 else dwalk (rem - w) ts)
      else dwalk rem ts

/-- The tiered part of the demand calculations in `bill_calculator.py`. -/
def tieredDemand (demand : ℚ) (steps : List DStep) : ℚ :=
  dwalk demand (dsortSteps steps)

/-- A `DemandTime_Table` row as read by `bill_calculator.py`: `RatekW`
(`None → 0`) and the `Season` string. -/
structure DTRow where
  rate : ℚ
  season : String

/-- The time-of-use demand logic of `bill_calculator.py`: pick the first
row carrying the highest rate; it contributes `rate × demand` when its
season is empty, the month is empty, or the (summer / winter) month list
of its season contains the month. -/
def touDemandCharge (demand : ℚ) (month : String) (rows : List DTRow) : ℚ :=
  match rows with
  | [] => 0
  | r0 :: rs =>
      let hiRate := rs.foldl (fun a x => max a x.rate) r0.rate
      let hiRow := (((r0 :: rs).find? fun x => x.rate == hiRate).getD r0)
      if hiRow.season == "" || month == "" ||
          (strLower hiRow.season == "summer" && summer_months.contains month) ||
          (strLower hiRow.season == "winter" && winter_months.contains month) then
        hiRate * demand
      else 0

/-- `calculate_demand_charges(...)` from `bill_calculator.py` (total
only): flat-range sum plus time-of-use demand plus tiered demand plus,
when the reactive flag is set and demand is positive, the reactive
charge on `kvar = demand × tan(acos(power_factor))`; the trigonometric
factor is supplied precomputed as `tanacos`. -/
def calculate_demand_charges (demand tanacos : ℚ) (month : String)
    (hasReactive : Bool) (flatRows : List RangeRow) (touRows : List DTRow)
    (stepRows : List DStep) (reactRows : List RangeRow) : ℚ :=
  let kvar := demand * tanacos
  rangeCharge demand flatRows + touDemandCharge demand month touRows +
    tieredDemand demand stepRows +
    (if hasReactive && decide (0 < demand) then rangeCharge kvar reactRows else 0)

/-- `calculate_taxes(...)` from `bill_calculator.py` (amount and
default-tax flag): with tax rows present, sum `subtotal × rate / 100`;
with none, charge the default 6% of the subtotal and set the flag. -/
def calculate_taxes (rows : List ℚ) (subtotal : ℚ) : ℚ × Bool :=
  match rows with
  | [] => (subtotal * (6 / 100), true)
  | _ => ((rows.map fun p => subtotal * (p / 100)).sum, false)

/-- The summary values assembled by `calculate_current_bill`
(`bill_calculator.py`). -/
structure CurrentBill where
  service : ℚ
  energy : ℚ
  demand : ℚ
  other : ℚ
  tax : ℚ
  total : ℚ
  usingDefaultTax : Bool

/-- `calculate_current_bill(...)` from `bill_calculator.py`: service and
other charges are plain sums; energy and demand are computed only when
their flag is set and the corresponding usage value is truthy
(non-zero); `subtotal = service + energy + demand + other`; taxes via
`calculate_taxes`; `total = subtotal + tax`. -/
def calculate_current_bill (usage : ℚ) (ubt : List (String × ℚ))
    (demand tanacos : ℚ) (month : String)
    (hasEnergy hasDemand hasReactive : Bool)
    (serviceRows : List ℚ)
    (eflat : List RangeRow) (etier : List BTier) (etou : List TRow)
    (dflat : List RangeRow) (dtou : List DTRow) (dstep : List DStep)
    (dreact : List RangeRow)
    (otherRows : List ℚ) (taxRows : List ℚ) : CurrentBill :=
  let sc := serviceRows.sum
  let ec :=
    if hasEnergy && !decide (usage = 0) then
      calculate_energy_charges usage ubt month eflat etier etou
    else 0
  let dc :=
    if hasDemand && !decide (demand = 0) then
      calculate_demand_charges demand tanacos month hasReactive dflat dtou dstep dreact
    else 0
  let oc := otherRows.sum
  let sub := sc + ec + dc + oc
  let tx := calculate_taxes taxRows sub
  ⟨sc, ec, dc, oc, tx.1, sub + tx.1, tx.2⟩

/-- The result dictionary of `calculate_bill` (`bill_calculator.py`,
lines 74–302): the total and the `projected` value. -/
structure BillResult where
  total : ℚ
  projected : ℚ

/-- `calculate_bill(...)` from `bill_calculator.py` (lines 74–302): a
self-contained bill computation whose energy part sums flat, tiered and
evenly-split time-of-use charges, whose demand part sums flat,
maximum-rate time-of-use, tiered and (when `power_factor < 1`) reactive
charges, with taxes from the table or the flagged 6% default; the
returned `projected` value is `total_bill × 1.02`. -/
def calculate_bill (usage demand pf tanacos : ℚ) (month : String)
    (serviceRows : List ℚ)
    (eflat : List RangeRow) (etier : List BTier) (etou : List TRow)
    (dflat : List RangeRow) (dtou : List DTRow) (dstep : List DStep)
    (dreact : List RangeRow)
    (otherRows : List ℚ) (taxRows : List ℚ) : BillResult :=
  let sc := serviceRows.sum
  let ec :=
    if !decide (usage = 0) then
      rangeCharge usage eflat + tieredEnergy usage month etier +
        touEnergyEven usage month etou
    else 0
  let dc :=
    if !decide (demand = 0) then
      rangeCharge demand dflat + touDemandCharge demand month dtou +
        tieredDemand demand dstep +
        (if decide (pf < 1) then rangeCharge (demand * tanacos) dreact else 0)
    else 0
  let oc := otherRows.sum
  let sub := sc + ec + dc + oc
  let tx := calculate_taxes taxRows sub
  let total := sub + tx.1
  ⟨total, total * (102 / 100)⟩

end BC

namespace BEC

/-- `calculate_comparison_bill(...)` from `src/bill_est_calculator.py`:
every charge component is left at its initialised zero (the body is
stubbed in the source), `total = subtotal + tax`, and the returned
`projected` value is `total_bill × 1.02`. -/
def calculate_comparison_bill : BC.BillResult :=
  let service : ℚ := 0
  let energy : ℚ := 0
  let demand : ℚ := 0
  let other : ℚ := 0
  let tax : ℚ := 0
  let subtotal := service + energy + demand + other
  let total := subtotal + tax
  ⟨total, total * (102 / 100)⟩

end BEC

/-! Shared concrete inputs for the claim theorems. -/

/-- A row with no applicability constraints at all. -/
def noRec : App.Rec := ⟨none, none, false, none, none, none⟩

/-! ## Claim C1 -/

/-- C1, counterexample: in `app.py`'s `calculate_incremental_charges` a
zero-width tier (`StartKWh = EndKWh = 50`) followed by a positive-width
tier (`50–100` at rate 1) yields a total of 0 at usage 80 — the walk
stops at the zero-width tier, so the later tier contributes nothing even
though the remaining usage 80 is positive (the claim predicts a
contribution of `min(80, 50) × 1 = 50`). -/
theorem claim_C1_counterexample :
    App.calculate_incremental_charges 80
        [⟨50, some 50, 5⟩, ⟨50, some 100, 1⟩] = 0 ∧
      (0 : ℚ) < 80 ∧ (0 : ℚ) ≠ 50 := by
  refine ⟨?_, by norm_num, by norm_num⟩
  norm_num [App.calculate_incremental_charges, App.sortTiers, App.insertTier,
    App.walk, App.tierWidth]

/-- C1, amended: in `app.py`'s `calculate_incremental_charges` a tier
whose computed width is `≤ 0` stops the walk outright, so nothing after
it contributes; only the tier loop of `bill_calculator.py`, whose width
is `min(max(0, R − start), end − start)`, passes over a non-positive
width tier without stopping, leaving the walk over the remaining tiers
unchanged. -/
theorem claim_C1_amended :
    (∀ (rem : ℚ) (t : App.Tier) (ts : List App.Tier),
        App.tierWidth rem t ≤ 0 → App.walk rem (t :: ts) = 0) ∧
      (∀ (month : String) (rem : ℚ) (t : BC.BTier) (ts : List BC.BTier),
        BC.seasonSkip t.season month = false → BC.btierWidth rem t ≤ 0 →
          BC.bwalk month rem (t :: ts) = BC.bwalk month rem ts) := by
  constructor
  · intro rem t ts h
    simp [App.walk, h]
  · intro month rem t ts hskip hw
    simp [BC.bwalk, hskip, not_lt.mpr hw]

/-- C1, witness for the amended claim at concrete inputs: the zero-width
tier `[50, 50]` stops the `app.py` walk at usage 80 (total 0), while the
`bill_calculator.py` walk passes over it. -/
theorem claim_C1_witness :
    App.tierWidth 80 ⟨50, some 50, 5⟩ ≤ 0 ∧
      App.walk 80 [⟨50, some 50, 5⟩, ⟨50, some 100, 1⟩] = 0 ∧
      BC.seasonSkip (BC.BTier.season ⟨50, some 50, 5, ""⟩) "June" = false ∧
      BC.btierWidth 80 ⟨50, some 50, 5, ""⟩ ≤ 0 ∧
      BC.bwalk "June" 80 [⟨50, some 50, 5, ""⟩, ⟨50, some 100, 1, ""⟩] =
        BC.bwalk "June" 80 [⟨50, some 100, 1, ""⟩] :=
  ⟨by norm_num [App.tierWidth],
    claim_C1_amended.1 80 ⟨50, some 50, 5⟩ [⟨50, some 100, 1⟩]
      (by norm_num [App.tierWidth]),
    by rfl, by norm_num [BC.btierWidth],
    claim_C1_amended.2 "June" 80 ⟨50, some 50, 5, ""⟩ [⟨50, some 100, 1, ""⟩]
      (by rfl) (by norm_num [BC.btierWidth])⟩

/-! ## Claim C2 -/

/-- C2, counterexample: the tax loop of `calculate_bill` in `app.py` has
no default-tax fallback — with no tax rows it charges 0, not 6% of the
subtotal (here 6% of a 120 subtotal would be 7.20), and it produces no
default-tax flag. -/
theorem claim_C2_counterexample :
    App.taxTotal ⟨none, 1, 0, 1000, 0⟩ ⟨0, 120, 0, 0⟩ 0 [] = 0 ∧
      (6 / 100 : ℚ) * 120 = 36 / 5 ∧ (0 : ℚ) ≠ 36 / 5 := by
  refine ⟨rfl, by norm_num, by norm_num⟩

/-- Scenario A evaluated through `calculate_current_bill` of
`bill_calculator.py`: a single flat energy rate of 0.12 with no voltage
range, usage 1000 kWh, and no other components of any kind. -/
def scenarioA_bill : BC.CurrentBill :=
  BC.calculate_current_bill 1000 [] 0 0 "January" true false false []
    [⟨12 / 100, 0, none⟩] [] [] [] [] [] [] [] []

/-- C2, amended: `bill_calculator.py`'s `calculate_taxes` does charge
the flagged 6% default on the subtotal whenever no tax rows exist, and
Scenario A (flat energy 0.12 × 1000, no other components, no taxes)
yields energy 120.00, default tax 7.20 and total 127.20 through
`calculate_current_bill`; `app.py`'s `calculate_bill`, however, charges
zero tax with no flag when the schedule has no tax rows. -/
theorem claim_C2_amended :
    (∀ subtotal : ℚ, BC.calculate_taxes [] subtotal = (subtotal * (6 / 100), true)) ∧
      scenarioA_bill.energy = 120 ∧ scenarioA_bill.tax = 36 / 5 ∧
      scenarioA_bill.total = 636 / 5 ∧ scenarioA_bill.usingDefaultTax = true ∧
      (∀ (c : App.Ctx) (ch : App.Charges) (pt : ℚ), App.taxTotal c ch pt [] = 0) := by
  refine ⟨fun _ => rfl, ?_, ?_, ?_, by rfl, fun _ _ _ => rfl⟩ <;>
    norm_num [scenarioA_bill, BC.calculate_current_bill, BC.calculate_energy_charges,
      BC.rangeCharge, BC.inRange, BC.tieredEnergy, BC.bsortTiers, BC.bwalk,
      BC.touEnergy, BC.calculate_taxes]


/-! ## Claim C3 -/

/-- The concrete context for the C3 refutation: usage 10 kWh, no
voltage, January. -/
def c3ctx : App.Ctx := ⟨none, 1, 0, 10, 0⟩

/-- One applicable open-ended incremental tier at rate 1. -/
def c3inc : List App.IncRow := [⟨noRec, ⟨0, none, 1⟩⟩]

/-- One applicable time-of-use row at rate 2 with no time bounds. -/
def c3tou : List App.TouRow := [⟨noRec, App.TimeCol.absent, App.TimeCol.absent, 2⟩]

/-- C3, counterexample: with an applicable tiered component (rate 1,
accumulator result 10) and an applicable time-of-use component (rate 2,
distributor total 20 > 0) both present, `calculate_bill` in `app.py`
reports an energy total of 20 — the time-of-use result replaces the
tiered result, which the claim says never happens. -/
theorem claim_C3_counterexample :
    App.energyTotal c3ctx [] c3inc c3tou = 20 ∧
      App.calculate_incremental_charges c3ctx.usage
          (c3inc.map App.IncRow.tier) = 10 ∧
      (20 : ℚ) ≠ 10 := by
  refine ⟨?_, ?_, by norm_num⟩
  · norm_num [App.energyTotal, c3ctx, c3inc, c3tou, noRec, App.flatEnergyTotal,
      App.touEnergyTotal, App.passes, App.is_applicable, App.is_in_season,
      App.is_in_date_range, App.estimate_time_distribution, App.totalHours,
      App.touHours, App.allocHours, App.calculate_incremental_charges,
      App.sortTiers, App.insertTier, App.walk, App.tierWidth, List.filter]
  · norm_num [c3ctx, c3inc, App.calculate_incremental_charges, App.sortTiers,
      App.insertTier, App.walk, App.tierWidth]

/-- C3, amended: in `calculate_bill` of `app.py` the energy precedence
is time-of-use first, then tiered, then flat — a positive time-of-use
total replaces whatever preceded it, including the tiered accumulator
result; the tiered result replaces the flat sum when applicable tiered
entries exist; and the flat sum is used only when neither applies. -/
theorem claim_C3_amended :
    ∀ (c : App.Ctx) (flat : List App.FlatRow) (inc : List App.IncRow)
      (tou : List App.TouRow),
      (0 < App.touEnergyTotal c tou →
        App.energyTotal c flat inc tou = App.touEnergyTotal c tou) ∧
      (App.touEnergyTotal c tou ≤ 0 →
        (inc.filter fun r => App.passes c r.attrs).isEmpty = false →
        App.energyTotal c flat inc tou =
          App.calculate_incremental_charges c.usage
            ((inc.filter fun r => App.passes c r.attrs).map App.IncRow.tier)) ∧
      (App.touEnergyTotal c tou ≤ 0 →
        (inc.filter fun r => App.passes c r.attrs).isEmpty = true →
        App.energyTotal c flat inc tou = App.flatEnergyTotal c flat) := by
  intro c flat inc tou
  refine ⟨fun h => ?_, fun h h2 => ?_, fun h h2 => ?_⟩
  · simp [App.energyTotal, if_pos h]
  · simp [App.energyTotal, if_neg (not_lt.mpr h), h2]
  · simp [App.energyTotal, if_neg (not_lt.mpr h), h2]

/-- C3, witness for the amended claim: at the concrete inputs of the
refutation the positive time-of-use total is what the energy total
equals. -/
theorem claim_C3_witness :
    App.energyTotal c3ctx [] c3inc c3tou = App.touEnergyTotal c3ctx c3tou :=
  (claim_C3_amended c3ctx [] c3inc c3tou).1 (by
    norm_num [App.touEnergyTotal, c3ctx, c3tou, noRec, App.passes,
      App.is_applicable, App.is_in_season, App.is_in_date_range,
      App.estimate_time_distribution, App.totalHours, App.touHours,
      App.allocHours, List.filter])

/-! ## Claim C4 -/

/-- C4, confirmed: in `calculate_bill` of `app.py` a tax with basis
`all` is charged on `subtotal + percentage_total` while a percentage
with basis `all` is charged on the subtotal alone; a percentage basis
can only ever resolve to one of the four tax-free amounts (a category
total or the subtotal), and the assembled bill applies the percentage
phase strictly before the tax phase, as the composed total for an
applicable all-basis percentage row and an applicable all-basis tax row
shows. -/
theorem claim_C4 :
    (∀ (ch : App.Charges) (sub pt : ℚ), App.taxBase ch sub pt "all" = sub + pt) ∧
      (∀ (ch : App.Charges) (sub : ℚ), App.pctBase ch sub "all" = sub) ∧
      (∀ (ch : App.Charges) (sub : ℚ) (b : String),
        App.pctBase ch sub b = ch.energy ∨ App.pctBase ch sub b = ch.demand ∨
          App.pctBase ch sub b = ch.service ∨ App.pctBase ch sub b = sub) ∧
      (∀ (c : App.Ctx) (ch : App.Charges) (p r : ℚ),
        App.billTotal c ch [⟨noRec, p, "all"⟩] [⟨noRec, r, "all"⟩] =
          App.subtotalOf ch + (p / 100) * App.subtotalOf ch +
            (r / 100) * (App.subtotalOf ch + (p / 100) * App.subtotalOf ch)) := by
  refine ⟨fun ch sub pt => rfl, fun ch sub => rfl, fun ch sub b => ?_, fun c ch p r => ?_⟩
  · unfold App.pctBase
    split_ifs <;> simp
  · simp [App.billTotal, App.percentageTotal, App.taxTotal, noRec,
      App.is_applicable, App.pctBase, App.taxBase]

/-! ## Claim C5 -/

/-- C5, counterexample: a pending demand component whose voltage bounds
`[0, 100]` do contain the context voltage 50 is nevertheless excluded by
`is_applicable` in `app.py` and contributes nothing to the demand total,
refuting participation "iff `minVoltage ≤ voltage ≤ maxVoltage`" (its
contribution would have been `3 × 10 = 30`). -/
theorem claim_C5_counterexample :
    App.is_applicable ⟨some 0, some 100, true, none, none, none⟩ (some 50) = false ∧
      ((0 : ℚ) ≤ 50 ∧ (50 : ℚ) ≤ 100) ∧
      App.flatDemandTotal ⟨some 50, 1, 0, 0, 10⟩
          [⟨⟨some 0, some 100, true, none, none, none⟩, 3⟩] = 0 ∧
      (3 * 10 : ℚ) ≠ 0 := by
  refine ⟨by rfl, by norm_num, ?_, by norm_num⟩
  norm_num [App.flatDemandTotal, App.passes, App.is_applicable]

/-- C5, amended: for a component with both voltage bounds evaluated
against a supplied voltage, `is_applicable` in `app.py` holds iff the
voltage is within bounds **and** the component is not pending (the
demand loop additionally requires the season and date filters); the
out-of-bounds direction of the claim stands, as Scenario C shows: a
demand component with bounds `[0, 50]` under context voltage 69 is
excluded and leaves the demand total exactly what the remaining
component produces. -/
theorem claim_C5_amended :
    (∀ (lo hi v : ℚ) (p : Bool) (s : Option String) (d1 d2 : Option ℤ),
      App.is_applicable ⟨some lo, some hi, p, s, d1, d2⟩ (some v) =
        (decide (lo ≤ v) && decide (v ≤ hi) && !p)) ∧
      App.flatDemandTotal ⟨some 69, 1, 0, 0, 10⟩
          [⟨⟨some 0, some 50, false, none, none, none⟩, 100⟩, ⟨noRec, 2⟩] =
        App.flatDemandTotal ⟨some 69, 1, 0, 0, 10⟩ [⟨noRec, 2⟩] ∧
      App.flatDemandTotal ⟨some 69, 1, 0, 0, 10⟩ [⟨noRec, 2⟩] = 20 := by
  refine ⟨fun lo hi v p s d1 d2 => rfl, ?_, ?_⟩ <;>
    norm_num [App.flatDemandTotal, App.passes, App.is_applicable, noRec,
      App.is_in_season, App.is_in_date_range]

/-! ## Claim C6 -/

/-- C6, counterexample: in the tiered-energy loop of
`bill_calculator.py` a component with season `Summer` participates in
September (billing month `"September"`, contributing `10 × 1 = 10`),
although the claimed month mapping derives `Fall` for month 9, under
which a `Summer` component would be inapplicable and contribute 0. -/
theorem claim_C6_counterexample :
    BC.tieredEnergy 10 "September" [⟨0, none, 1, "Summer"⟩] = 10 ∧
      App.get_current_season 9 = "Fall" ∧
      (strLower "Summer" == strLower "Fall") = false ∧ (10 : ℚ) ≠ 0 := by
  have h1 : strLower "Summer" ≠ "winter" := by decide
  refine ⟨?_, by rfl, by rfl, by norm_num⟩
  norm_num [BC.tieredEnergy, BC.bsortTiers, BC.insertBTier, BC.bwalk,
    BC.btierWidth, BC.seasonSkip, BC.summer_months, BC.winter_months, h1]

/-- C6, amended: `app.py`'s filter does derive the season from the
evaluation month by the claimed mapping (months 3–5 Spring, 6–8 Summer,
9–11 Fall, 12/1/2 Winter) and accepts a component iff its season is
empty/absent or matches case-insensitively; `bill_calculator.py`'s
loops instead gate only `summer` components to June–September and
`winter` components to December–March (any other season value is never
skipped), so the two sources disagree on the mapping (September) and on
non-summer/winter seasons. -/
theorem claim_C6_amended :
    (App.get_current_season 1 = "Winter" ∧ App.get_current_season 2 = "Winter" ∧
      App.get_current_season 3 = "Spring" ∧ App.get_current_season 4 = "Spring" ∧
      App.get_current_season 5 = "Spring" ∧ App.get_current_season 6 = "Summer" ∧
      App.get_current_season 7 = "Summer" ∧ App.get_current_season 8 = "Summer" ∧
      App.get_current_season 9 = "Fall" ∧ App.get_current_season 10 = "Fall" ∧
      App.get_current_season 11 = "Fall" ∧ App.get_current_season 12 = "Winter") ∧
      (∀ m : ℕ, App.is_in_season m none = true) ∧
      (∀ (m : ℕ) (s : String),
        App.is_in_season m (some s) =
          ((s == "") || (strLower s == strLower (App.get_current_season m)))) ∧
      (∀ month : String,
        BC.seasonSkip "Summer" month =
          (!(month == "") && !(BC.summer_months.contains month))) ∧
      (∀ month : String,
        BC.seasonSkip "Winter" month =
          (!(month == "") && !(BC.winter_months.contains month))) ∧
      (∀ month : String,
        BC.seasonSkip "Spring" month = false ∧ BC.seasonSkip "Fall" month = false) := by
  have hsu : (strLower "Summer" == "summer") = true := rfl
  have hsw : (strLower "Summer" == "winter") = false := rfl
  have hwu : (strLower "Winter" == "summer") = false := rfl
  have hww : (strLower "Winter" == "winter") = true := rfl
  have hpu : (strLower "Spring" == "summer") = false := rfl
  have hpw : (strLower "Spring" == "winter") = false := rfl
  have hfu : (strLower "Fall" == "summer") = false := rfl
  have hfw : (strLower "Fall" == "winter") = false := rfl
  refine ⟨⟨rfl, rfl, rfl, rfl, rfl, rfl, rfl, rfl, rfl, rfl, rfl, rfl⟩,
    fun m => rfl, fun m s => ?_, fun month => ?_, fun month => ?_, fun month => ?_⟩
  · by_cases h : s = "" <;> simp [App.is_in_season, h]
  · simp [BC.seasonSkip, hsu, hsw]
  · simp [BC.seasonSkip, hwu, hww]
  · constructor <;> simp [BC.seasonSkip, hpu, hpw, hfu, hfw]

/-! ## Claim C7 -/

/-- One-step unfolding of the accumulation walk. -/
theorem walk_cons (rem : ℚ) (t : App.Tier) (ts : List App.Tier) :
    App.walk rem (t :: ts) =
      if App.tierWidth rem t ≤ 0 then 0
      else App.tierWidth rem t * t.rate +
        (if rem - App.tierWidth rem t ≤ 0 then 0
         else App.walk (rem - App.tierWidth rem t) ts) := rfl

/-- With nonnegative tier rates the walk's total is nonnegative. -/
theorem walk_nonneg (ts : List App.Tier) (h : ∀ t ∈ ts, 0 ≤ t.rate) (rem : ℚ) :
    0 ≤ App.walk rem ts := by
  induction ts generalizing rem with
  | nil => simp [App.walk]
  | cons t ts ih =>
      rw [walk_cons]
      split_ifs with h1 h2
      · exact le_refl 0
      · have hw : 0 < App.tierWidth rem t := not_le.mp h1
        simpa using mul_nonneg hw.le (h t (List.mem_cons_self t ts))
      · have hw : 0 < App.tierWidth rem t := not_le.mp h1
        exact add_nonneg (mul_nonneg hw.le (h t (List.mem_cons_self t ts)))
          (ih (fun u hu => h u (List.mem_cons_of_mem t hu)) _)

/-- The per-tier width is monotone in the remaining usage. -/
theorem tierWidth_mono {r1 r2 : ℚ} (t : App.Tier) (h : r1 ≤ r2) :
    App.tierWidth r1 t ≤ App.tierWidth r2 t := by
  cases hs : t.stop with
  | none => simpa [App.tierWidth, hs] using h
  | some e => simpa [App.tierWidth, hs] using min_le_min h (le_refl (e - t.start))

/-- Subtracting the per-tier width preserves the order of remaining
usages. -/
theorem sub_tierWidth_mono {r1 r2 : ℚ} (t : App.Tier) (h : r1 ≤ r2) :
    r1 - App.tierWidth r1 t ≤ r2 - App.tierWidth r2 t := by
  cases hs : t.stop with
  | none => simp [App.tierWidth, hs]
  | some e =>
      simp only [App.tierWidth, hs]
      rcases le_total r1 (e - t.start) with h1 | h1 <;>
        rcases le_total r2 (e - t.start) with h2 | h2 <;>
          simp [min_eq_left, min_eq_right, h1, h2] <;> linarith

/-- With nonnegative tier rates the walk's total is monotone in the
usage. -/
theorem walk_mono (ts : List App.Tier) (h : ∀ t ∈ ts, 0 ≤ t.rate)
    {r1 r2 : ℚ} (hr : r1 ≤ r2) : App.walk r1 ts ≤ App.walk r2 ts := by
  induction ts generalizing r1 r2 with
  | nil => simp [App.walk]
  | cons t ts ih =>
      have hw := tierWidth_mono t hr
      by_cases h1 : App.tierWidth r1 t ≤ 0
      · have e1 : App.walk r1 (t :: ts) = 0 := by rw [walk_cons, if_pos h1]
        rw [e1]
        exact walk_nonneg _ h _
      · have h2 : ¬ App.tierWidth r2 t ≤ 0 := fun hc => h1 (le_trans hw hc)
        rw [walk_cons, walk_cons, if_neg h1, if_neg h2]
        refine add_le_add (mul_le_mul_of_nonneg_right hw (h t (List.mem_cons_self t ts))) ?_
        by_cases hz : r1 - App.tierWidth r1 t ≤ 0
        · rw [if_pos hz]
          split_ifs with hz2
          · exact le_refl 0
          · exact walk_nonneg ts (fun u hu => h u (List.mem_cons_of_mem t hu)) _
        · have hz2 : ¬ r2 - App.tierWidth r2 t ≤ 0 := fun hc =>
            hz (le_trans (sub_tierWidth_mono t hr) hc)
          rw [if_neg hz, if_neg hz2]
          exact ih (fun u hu => h u (List.mem_cons_of_mem t hu)) (sub_tierWidth_mono t hr)

/-- Insertion used by the stable sort preserves list membership. -/
theorem mem_insertTier {x t : App.Tier} {l : List App.Tier} :
    x ∈ App.insertTier t l ↔ x = t ∨ x ∈ l := by
  induction l with
  | nil => simp [App.insertTier]
  | cons u us ih =>
      rw [App.insertTier]
      split_ifs with hle
      · simp
      · simp only [List.mem_cons, ih]
        tauto

/-- The stable sort preserves list membership. -/
theorem mem_sortTiers {x : App.Tier} {l : List App.Tier} :
    x ∈ App.sortTiers l ↔ x ∈ l := by
  induction l with
  | nil => simp [App.sortTiers]
  | cons t ts ih => simp [App.sortTiers, mem_insertTier, ih]

/-- One-step unfolding of the `bill_calculator.py` tiered accumulation
loop. -/
theorem bwalk_cons (month : String) (rem : ℚ) (t : BC.BTier) (ts : List BC.BTier) :
    BC.bwalk month rem (t :: ts) =
      if BC.seasonSkip t.season month then BC.bwalk month rem ts
      else if 0 < BC.btierWidth rem t then
        BC.btierWidth rem t * t.rate +
          (if rem - BC.btierWidth rem t ≤ 0 then 0
           else BC.bwalk month (rem - BC.btierWidth rem t) ts)
      else BC.bwalk month rem ts := rfl

/-- The `bill_calculator.py` tier width never exceeds
`max 0 (remaining − start)`. -/
theorem btierWidth_le (rem : ℚ) (t : BC.BTier) :
    BC.btierWidth rem t ≤ max 0 (rem - t.startk) := by
  cases hs : t.stopk with
  | none => simp [BC.btierWidth, hs]
  | some e =>
      have he : BC.btierWidth rem t = min (max 0 (rem - t.startk)) (e - t.startk) := by
        simp [BC.btierWidth, hs]
      rw [he]
      exact min_le_left _ _

/-- The `bill_calculator.py` tier width is monotone in the remaining
usage. -/
theorem btierWidth_mono {r1 r2 : ℚ} (t : BC.BTier) (h : r1 ≤ r2) :
    BC.btierWidth r1 t ≤ BC.btierWidth r2 t := by
  cases hs : t.stopk with
  | none =>
      simp only [BC.btierWidth, hs]
      exact max_le_max le_rfl (sub_le_sub_right h _)
  | some e =>
      simp only [BC.btierWidth, hs]
      exact min_le_min (max_le_max le_rfl (sub_le_sub_right h _)) le_rfl

/-- Subtracting the `bill_calculator.py` tier width preserves the order
of remaining usages. -/
theorem sub_btierWidth_mono {r1 r2 : ℚ} (t : BC.BTier) (h : r1 ≤ r2) :
    r1 - BC.btierWidth r1 t ≤ r2 - BC.btierWidth r2 t := by
  have id1 : ∀ r a b : ℚ, r - min a b = max (r - a) (r - b) := by
    intro r a b
    rcases le_total a b with hab | hab
    · rw [min_eq_left hab, max_eq_left (by linarith)]
    · rw [min_eq_right hab, max_eq_right (by linarith)]
  have id2 : ∀ r a b : ℚ, r - max a b = min (r - a) (r - b) := by
    intro r a b
    rcases le_total a b with hab | hab
    · rw [max_eq_right hab, min_eq_right (by linarith)]
    · rw [max_eq_left hab, min_eq_left (by linarith)]
  have hmax : ∀ r : ℚ, r - max 0 (r - t.startk) = min r t.startk := by
    intro r
    rw [id2]
    simp
  cases hs : t.stopk with
  | none =>
      have e1 : BC.btierWidth r1 t = max 0 (r1 - t.startk) := by simp [BC.btierWidth, hs]
      have e2 : BC.btierWidth r2 t = max 0 (r2 - t.startk) := by simp [BC.btierWidth, hs]
      rw [e1, e2, hmax, hmax]
      exact min_le_min h le_rfl
  | some e =>
      have e1 : BC.btierWidth r1 t = min (max 0 (r1 - t.startk)) (e - t.startk) := by
        simp [BC.btierWidth, hs]
      have e2 : BC.btierWidth r2 t = min (max 0 (r2 - t.startk)) (e - t.startk) := by
        simp [BC.btierWidth, hs]
      rw [e1, e2, id1, id1, hmax, hmax]
      exact max_le_max (min_le_min h le_rfl) (by linarith)

/-- With nonnegative tier rates the `bill_calculator.py` walk's total is
nonnegative. -/
theorem bwalk_nonneg (month : String) (ts : List BC.BTier)
    (h : ∀ t ∈ ts, 0 ≤ t.rate) (rem : ℚ) : 0 ≤ BC.bwalk month rem ts := by
  induction ts generalizing rem with
  | nil => simp [BC.bwalk]
  | cons t ts ih =>
      have ht : 0 ≤ t.rate := h t (List.mem_cons_self t ts)
      have hts : ∀ u ∈ ts, 0 ≤ u.rate := fun u hu => h u (List.mem_cons_of_mem t hu)
      rw [bwalk_cons]
      split_ifs with hskip hw hz
      · exact ih hts _
      · simpa using mul_nonneg hw.le ht
      · exact add_nonneg (mul_nonneg hw.le ht) (ih hts _)
      · exact ih hts _

/-- When the remaining usage is at most every tier's start boundary, the
`bill_calculator.py` walk charges nothing. -/
theorem bwalk_zero_of_le_starts (month : String) (ts : List BC.BTier) (rem : ℚ)
    (h : ∀ u ∈ ts, rem ≤ u.startk) : BC.bwalk month rem ts = 0 := by
  induction ts with
  | nil => rfl
  | cons t ts ih =>
      have ht : rem ≤ t.startk := h t (List.mem_cons_self t ts)
      have hts : ∀ u ∈ ts, rem ≤ u.startk := fun u hu => h u (List.mem_cons_of_mem t hu)
      have hw : ¬ 0 < BC.btierWidth rem t := by
        have hle := btierWidth_le rem t
        rw [max_eq_left (by linarith)] at hle
        exact not_lt.mpr hle
      rw [bwalk_cons]
      by_cases h1 : BC.seasonSkip t.season month
      · rw [if_pos h1]
        exact ih hts
      · rw [if_neg h1, if_neg hw]
        exact ih hts

/-- Insertion used by the `bill_calculator.py` sort preserves list
membership. -/
theorem mem_insertBTier {x t : BC.BTier} {l : List BC.BTier} :
    x ∈ BC.insertBTier t l ↔ x = t ∨ x ∈ l := by
  induction l with
  | nil => simp [BC.insertBTier]
  | cons u us ih =>
      rw [BC.insertBTier]
      split_ifs with hle
      · simp
      · simp only [List.mem_cons, ih]
        tauto

/-- The `bill_calculator.py` sort preserves list membership. -/
theorem mem_bsortTiers {x : BC.BTier} {l : List BC.BTier} :
    x ∈ BC.bsortTiers l ↔ x ∈ l := by
  induction l with
  | nil => simp [BC.bsortTiers]
  | cons t ts ih => simp [BC.bsortTiers, mem_insertBTier, ih]

/-- Insertion used by the `bill_calculator.py` sort preserves sortedness
by start boundary. -/
theorem sorted_insertBTier (t : BC.BTier) (l : List BC.BTier)
    (h : l.Pairwise fun a b => a.startk ≤ b.startk) :
    (BC.insertBTier t l).Pairwise fun a b => a.startk ≤ b.startk := by
  induction l with
  | nil => simp [BC.insertBTier]
  | cons u us ih =>
      rcases List.pairwise_cons.mp h with ⟨hu, hus⟩
      rw [BC.insertBTier]
      split_ifs with hle
      · refine List.pairwise_cons.mpr ⟨?_, h⟩
        intro x hx
        rcases List.mem_cons.mp hx with rfl | hx
        · exact hle
        · exact le_trans hle (hu x hx)
      · refine List.pairwise_cons.mpr ⟨?_, ih hus⟩
        intro x hx
        rcases mem_insertBTier.mp hx with rfl | hx
        · exact le_of_not_le hle
        · exact hu x hx

/-- The `bill_calculator.py` sort produces a list sorted ascending by
start boundary. -/
theorem sorted_bsortTiers (ts : List BC.BTier) :
    (BC.bsortTiers ts).Pairwise fun a b => a.startk ≤ b.startk := by
  induction ts with
  | nil => simp [BC.bsortTiers]
  | cons t ts ih => exact sorted_insertBTier t _ ih

/-- With nonnegative tier rates the `bill_calculator.py` walk over a
start-sorted tier list is monotone in the usage. -/
theorem bwalk_mono (month : String) (ts : List BC.BTier)
    (hrates : ∀ t ∈ ts, 0 ≤ t.rate)
    (hsort : ts.Pairwise fun a b => a.startk ≤ b.startk)
    {r1 r2 : ℚ} (hr : r1 ≤ r2) :
    BC.bwalk month r1 ts ≤ BC.bwalk month r2 ts := by
  induction ts generalizing r1 r2 with
  | nil => simp [BC.bwalk]
  | cons t ts ih =>
      rcases List.pairwise_cons.mp hsort with ⟨hstarts, hsort2⟩
      have hrate : 0 ≤ t.rate := hrates t (List.mem_cons_self t ts)
      have hrates2 : ∀ u ∈ ts, 0 ≤ u.rate := fun u hu => hrates u (List.mem_cons_of_mem t hu)
      rw [bwalk_cons, bwalk_cons]
      by_cases hskip : BC.seasonSkip t.season month
      · rw [if_pos hskip, if_pos hskip]
        exact ih hrates2 hsort2 hr
      · rw [if_neg hskip, if_neg hskip]
        have hwm := btierWidth_mono t hr
        by_cases h1 : 0 < BC.btierWidth r1 t
        · have h2 : 0 < BC.btierWidth r2 t := lt_of_lt_of_le h1 hwm
          rw [if_pos h1, if_pos h2]
          refine add_le_add (mul_le_mul_of_nonneg_right hwm hrate) ?_
          have hsub := sub_btierWidth_mono t hr
          by_cases hz : r1 - BC.btierWidth r1 t ≤ 0
          · rw [if_pos hz]
            split_ifs with hz2
            · exact le_refl 0
            · exact bwalk_nonneg month ts hrates2 _
          · have hz2 : ¬ r2 - BC.btierWidth r2 t ≤ 0 := fun hc => hz (le_trans hsub hc)
            rw [if_neg hz, if_neg hz2]
            exact ih hrates2 hsort2 hsub
        · rw [if_neg h1]
          by_cases h2 : 0 < BC.btierWidth r2 t
          · rw [if_pos h2]
            have hr1s : r1 ≤ t.startk := by
              by_contra hc
              push_neg at hc
              cases hs : t.stopk with
              | none =>
                  have e1 : BC.btierWidth r1 t = max 0 (r1 - t.startk) := by
                    simp [BC.btierWidth, hs]
                  rw [e1] at h1
                  exact h1 (lt_max_iff.mpr (Or.inr (by linarith)))
              | some e =>
                  have e1 : BC.btierWidth r1 t = min (max 0 (r1 - t.startk)) (e - t.startk) := by
                    simp [BC.btierWidth, hs]
                  have e2 : BC.btierWidth r2 t = min (max 0 (r2 - t.startk)) (e - t.startk) := by
                    simp [BC.btierWidth, hs]
                  have hmax1 : 0 < max 0 (r1 - t.startk) :=
                    lt_max_iff.mpr (Or.inr (by linarith))
                  have hece : e - t.startk ≤ 0 := by
                    by_contra hce
                    push_neg at hce
                    rw [e1] at h1
                    exact h1 (lt_min hmax1 hce)
                  rw [e2] at h2
                  exact absurd (lt_of_lt_of_le h2 (min_le_right _ _)) (not_lt.mpr hece)
            have hzero : BC.bwalk month r1 ts = 0 :=
              bwalk_zero_of_le_starts month ts r1 fun u hu => le_trans hr1s (hstarts u hu)
            rw [hzero]
            refine add_nonneg (mul_nonneg h2.le hrate) ?_
            split_ifs with hz2
            · exact le_refl 0
            · exact bwalk_nonneg month ts hrates2 _
          · rw [if_neg h2]
            exact ih hrates2 hsort2 hr

/-- C7, counterexample: for the single open-ended tier with rate `−1`,
`calculate_incremental_charges` in `app.py` yields `−1` at usage 1 but
`0` at usage 0 — the charge strictly decreases although the usage grows,
refuting unconditional monotonicity. -/
theorem claim_C7_counterexample :
    (0 : ℚ) ≤ 1 ∧
      App.calculate_incremental_charges 1 [⟨0, none, -1⟩] <
        App.calculate_incremental_charges 0 [⟨0, none, -1⟩] := by
  constructor
  · norm_num
  · norm_num [App.calculate_incremental_charges, App.sortTiers, App.insertTier,
      App.walk, App.tierWidth]

/-- C7, amended: for a fixed tier list all of whose rates are
nonnegative, the tiered charge is monotonically non-decreasing in the
usage — both in `app.py`'s `calculate_incremental_charges` and in the
tiered-energy loop of `bill_calculator.py` (for any billing month). -/
theorem claim_C7_amended :
    (∀ (entries : List App.Tier) (u1 u2 : ℚ),
      App.allRatesNonneg entries = true → u1 ≤ u2 →
      App.calculate_incremental_charges u1 entries ≤
        App.calculate_incremental_charges u2 entries) ∧
      (∀ (month : String) (tiers : List BC.BTier) (u1 u2 : ℚ),
        BC.allTierRatesNonneg tiers = true → u1 ≤ u2 →
        BC.tieredEnergy u1 month tiers ≤ BC.tieredEnergy u2 month tiers) := by
  constructor
  · intro entries u1 u2 hrates hu
    have h : ∀ t ∈ App.sortTiers entries, 0 ≤ t.rate := by
      intro t ht
      exact of_decide_eq_true (List.all_eq_true.mp hrates t (mem_sortTiers.mp ht))
    exact walk_mono _ h hu
  · intro month tiers u1 u2 hrates hu
    have h : ∀ t ∈ BC.bsortTiers tiers, 0 ≤ t.rate := by
      intro t ht
      exact of_decide_eq_true (List.all_eq_true.mp hrates t (mem_bsortTiers.mp ht))
    exact bwalk_mono month _ h (sorted_bsortTiers tiers) hu

/-- C7, witness for the amended claim: two nonnegative-rate tiers,
usages 3 ≤ 7, in both sources' walks. -/
theorem claim_C7_witness :
    App.allRatesNonneg [⟨0, some 5, 1⟩, ⟨5, none, 2⟩] = true ∧ (3 : ℚ) ≤ 7 ∧
      App.calculate_incremental_charges 3 [⟨0, some 5, 1⟩, ⟨5, none, 2⟩] ≤
        App.calculate_incremental_charges 7 [⟨0, some 5, 1⟩, ⟨5, none, 2⟩] ∧
      BC.allTierRatesNonneg [⟨0, some 5, 1, ""⟩, ⟨5, none, 2, ""⟩] = true ∧
      BC.tieredEnergy 3 "June" [⟨0, some 5, 1, ""⟩, ⟨5, none, 2, ""⟩] ≤
        BC.tieredEnergy 7 "June" [⟨0, some 5, 1, ""⟩, ⟨5, none, 2, ""⟩] :=
  ⟨by rfl, by norm_num,
    claim_C7_amended.1 [⟨0, some 5, 1⟩, ⟨5, none, 2⟩] 3 7 (by rfl) (by norm_num),
    by rfl,
    claim_C7_amended.2 "June" [⟨0, some 5, 1, ""⟩, ⟨5, none, 2, ""⟩] 3 7
      (by rfl) (by norm_num)⟩

/-! ## Claim C8 -/

/-- C8, counterexample: for a period with only an `EndTime` of 18:00
(`StartTime` missing) next to a fully-timed 00:00–12:00 period, at usage
36 `estimate_time_distribution` in `app.py` allocates `[18, 12]` — the
partially-timed period is counted as 24 hours in the denominator
(total 36) but allocated on the 18 parsed hours, while the claim's
formula (`hours = 24` when times are absent) predicts `36 × 24 / 36 =
24` for it; the program's allocations do not even sum to the usage
(`18 + 12 ≠ 36`). -/
theorem claim_C8_counterexample :
    App.estimate_time_distribution 36
        [⟨noRec, App.TimeCol.absent, App.TimeCol.time 18, 1⟩,
         ⟨noRec, App.TimeCol.time 0, App.TimeCol.time 12, 1⟩] = [18, 12] ∧
      (36 : ℚ) *
          ((App.touHours ⟨noRec, App.TimeCol.absent, App.TimeCol.time 18, 1⟩ : ℤ) : ℚ) /
            ((App.totalHours
              [⟨noRec, App.TimeCol.absent, App.TimeCol.time 18, 1⟩,
               ⟨noRec, App.TimeCol.time 0, App.TimeCol.time 12, 1⟩] : ℤ) : ℚ) = 24 ∧
      (18 : ℚ) ≠ 24 ∧ (18 + 12 : ℚ) ≠ 36 := by
  refine ⟨?_, ?_, by norm_num, by norm_num⟩ <;>
    norm_num [App.estimate_time_distribution, App.totalHours, App.touHours,
      App.allocHours, noRec]

/-- C8, amended: with no explicit usage-by-period map,
`estimate_time_distribution` in `app.py` allocates to each period of a
non-empty list (with positive total hours) exactly
`usage × allocHours / totalHours`, where `totalHours` sums per-period
hours that count 24 for any period with a missing or non-string time,
while `allocHours` first defaults a *missing* `StartTime` to 00:00 and
a *missing* `EndTime` to 24:00 and then parses (difference, plus 24
when non-positive, 24 on a non-string).  The two hour notions agree on
every period that does not have exactly one time present, and for a
list of such periods the claim's formula `usage × hours / totalHours`
holds as stated. -/
theorem claim_C8_amended :
    (∀ (usage : ℚ) (es : List App.TouRow), es.isEmpty = false →
      0 < App.totalHours es →
      App.estimate_time_distribution usage es =
        es.map fun e => usage * ((App.allocHours e : ℤ) : ℚ) / ((App.totalHours es : ℤ) : ℚ)) ∧
      (∀ e : App.TouRow, App.timesAligned e = true →
        App.allocHours e = App.touHours e) ∧
      (∀ (usage : ℚ) (es : List App.TouRow), es.isEmpty = false →
        0 < App.totalHours es → es.all App.timesAligned = true →
        App.estimate_time_distribution usage es =
          es.map fun e => usage * ((App.touHours e : ℤ) : ℚ) / ((App.totalHours es : ℤ) : ℚ)) := by
  have key : ∀ (usage : ℚ) (es : List App.TouRow), es.isEmpty = false →
      0 < App.totalHours es →
      App.estimate_time_distribution usage es =
        es.map fun e => usage * ((App.allocHours e : ℤ) : ℚ) / ((App.totalHours es : ℤ) : ℚ) := by
    intro usage es h1 h2
    unfold App.estimate_time_distribution
    rw [if_neg (by simp [h1])]
    simp only [if_pos h2, mul_div_assoc]
  have agree : ∀ e : App.TouRow, App.timesAligned e = true →
      App.allocHours e = App.touHours e := by
    intro e he
    unfold App.timesAligned at he
    unfold App.allocHours App.touHours
    rcases e with ⟨a, s, en, r⟩
    cases s <;> cases en <;> simp_all
  refine ⟨key, agree, fun usage es h1 h2 hall => ?_⟩
  rw [key usage es h1 h2]
  refine List.map_congr_left fun e he => ?_
  rw [agree e (by simpa using List.all_eq_true.mp hall e he)]

/-- Scenario E's period list: 06–22 (16 hours) and 22–06 (8 hours,
wrapping midnight), both times present. -/
def c8rows : List App.TouRow :=
  [⟨noRec, App.TimeCol.time 6, App.TimeCol.time 22, 1⟩,
   ⟨noRec, App.TimeCol.time 22, App.TimeCol.time 6, 1⟩]

/-- C8, witness for the amended claim: both periods are fully timed, so
the claim's own `usage × hours / totalHours` formula applies, and at
usage 900 it yields `[600, 300]`. -/
theorem claim_C8_witness :
    c8rows.isEmpty = false ∧ 0 < App.totalHours c8rows ∧
      c8rows.all App.timesAligned = true ∧
      App.estimate_time_distribution 900 c8rows =
        (c8rows.map fun e => 900 * ((App.touHours e : ℤ) : ℚ) / ((App.totalHours c8rows : ℤ) : ℚ)) ∧
      App.estimate_time_distribution 900 c8rows = [600, 300] := by
  refine ⟨by rfl, by norm_num [App.totalHours, App.touHours, c8rows, noRec], by rfl,
    claim_C8_amended.2.2 900 c8rows (by rfl)
      (by norm_num [App.totalHours, App.touHours, c8rows, noRec]) (by rfl), ?_⟩
  norm_num [App.estimate_time_distribution, c8rows, noRec, App.totalHours,
    App.touHours, App.allocHours]

/-! ## Claim C9 -/

/-- One-step unfolding of the walk's remaining-usage trace. -/
theorem walkTrace_cons (rem : ℚ) (t : App.Tier) (ts : List App.Tier) :
    App.walkTrace rem (t :: ts) =
      if App.tierWidth rem t ≤ 0 then []
      else (rem - App.tierWidth rem t) ::
        (if rem - App.tierWidth rem t ≤ 0 then []
         else App.walkTrace (rem - App.tierWidth rem t) ts) := rfl

/-- The per-tier width never exceeds the remaining usage. -/
theorem tierWidth_le (rem : ℚ) (t : App.Tier) : App.tierWidth rem t ≤ rem := by
  cases hs : t.stop with
  | none => simp [App.tierWidth, hs]
  | some e => simp [App.tierWidth, hs, min_le_left]

/-- Every recorded remaining-usage value of the `app.py` walk is
nonnegative, unconditionally. -/
theorem walkTrace_nonneg (ts : List App.Tier) (rem : ℚ) :
    ∀ x ∈ App.walkTrace rem ts, 0 ≤ x := by
  induction ts generalizing rem with
  | nil => simp [App.walkTrace]
  | cons t ts ih =>
      intro x hx
      rw [walkTrace_cons] at hx
      split_ifs at hx with h1 h2
      · simp at hx
      · simp only [List.mem_singleton] at hx
        subst hx
        exact sub_nonneg.mpr (tierWidth_le rem t)
      · rcases List.mem_cons.mp hx with h | h
        · subst h
          exact sub_nonneg.mpr (tierWidth_le rem t)
        · exact ih _ x h

/-- One-step unfolding of the `bill_calculator.py` walk's trace. -/
theorem bwalkTrace_cons (month : String) (rem : ℚ) (t : BC.BTier)
    (ts : List BC.BTier) :
    BC.bwalkTrace month rem (t :: ts) =
      if BC.seasonSkip t.season month then BC.bwalkTrace month rem ts
      else if 0 < BC.btierWidth rem t then
        (rem - BC.btierWidth rem t) ::
          (if rem - BC.btierWidth rem t ≤ 0 then []
           else BC.bwalkTrace month (rem - BC.btierWidth rem t) ts)
      else BC.bwalkTrace month rem ts := rfl

/-- With nonnegative start boundaries, every recorded remaining-usage
value of the `bill_calculator.py` walk is nonnegative. -/
theorem bwalkTrace_nonneg (month : String) (ts : List BC.BTier)
    (hst : ∀ t ∈ ts, 0 ≤ t.startk) (rem : ℚ) :
    ∀ x ∈ BC.bwalkTrace month rem ts, 0 ≤ x := by
  induction ts generalizing rem with
  | nil => simp [BC.bwalkTrace]
  | cons t ts ih =>
      intro x hx
      have hs0 : 0 ≤ t.startk := hst t (List.mem_cons_self t ts)
      have hst' : ∀ u ∈ ts, 0 ≤ u.startk := fun u hu => hst u (List.mem_cons_of_mem t hu)
      rw [bwalkTrace_cons] at hx
      split_ifs at hx with hskip hw hz
      · exact ih hst' _ x hx
      · -- positive width, the subtraction stops the walk
        simp only [List.mem_singleton] at hx
        subst hx
        have hle := btierWidth_le rem t
        have hmax : 0 < max 0 (rem - t.startk) := lt_of_lt_of_le hw hle
        have hpos : 0 < rem - t.startk := by
          rcases le_or_lt (rem - t.startk) 0 with h | h
          · rw [max_eq_left h] at hmax
            exact absurd hmax (lt_irrefl 0)
          · exact h
        have : BC.btierWidth rem t ≤ rem - t.startk := by
          rwa [max_eq_right hpos.le] at hle
        linarith
      · rcases List.mem_cons.mp hx with h | h
        · subst h
          have hle := btierWidth_le rem t
          have hmax : 0 < max 0 (rem - t.startk) := lt_of_lt_of_le hw hle
          have hpos : 0 < rem - t.startk := by
            rcases le_or_lt (rem - t.startk) 0 with h' | h'
            · rw [max_eq_left h'] at hmax
              exact absurd hmax (lt_irrefl 0)
            · exact h'
          have : BC.btierWidth rem t ≤ rem - t.startk := by
            rwa [max_eq_right hpos.le] at hle
          linarith
        · exact ih hst' _ x h
      · exact ih hst' _ x hx

/-- C9, confirmed: starting from a nonnegative usage, the remaining
usage recorded by the tiered accumulation walks never becomes negative —
in `app.py`'s walk for any well-formed (nonnegative, ascending,
non-overlapping) tier list, and in `bill_calculator.py`'s walk for any
tier list with nonnegative start boundaries. -/
theorem claim_C9 :
    (∀ (u : ℚ) (ts : List App.Tier), 0 ≤ u → App.tiersWF ts = true →
      App.allNonneg (App.walkTrace u (App.sortTiers ts)) = true) ∧
      (∀ (u : ℚ) (month : String) (ts : List BC.BTier), 0 ≤ u →
        BC.allStartsNonneg ts = true →
        App.allNonneg (BC.bwalkTrace month u (BC.bsortTiers ts)) = true) := by
  constructor
  · intro u ts _ _
    refine List.all_eq_true.mpr fun x hx => ?_
    exact decide_eq_true (walkTrace_nonneg _ _ x hx)
  · intro u month ts _ hst
    refine List.all_eq_true.mpr fun x hx => ?_
    have hst' : ∀ t ∈ BC.bsortTiers ts, 0 ≤ t.startk := by
      intro t ht
      have := List.all_eq_true.mp hst t (mem_bsortTiers.mp ht)
      exact of_decide_eq_true this
    exact decide_eq_true (bwalkTrace_nonneg month _ hst' _ x hx)

/-- C9, witness: two well-formed tiers, usage 5, in both walks. -/
theorem claim_C9_witness :
    (0 : ℚ) ≤ 5 ∧ App.tiersWF [⟨0, some 3, 1⟩, ⟨3, some 10, 2⟩] = true ∧
      App.allNonneg (App.walkTrace 5
        (App.sortTiers [⟨0, some 3, 1⟩, ⟨3, some 10, 2⟩])) = true ∧
      BC.allStartsNonneg [⟨0, some 3, 1, ""⟩, ⟨3, some 10, 2, ""⟩] = true ∧
      App.allNonneg (BC.bwalkTrace "June" 5
        (BC.bsortTiers [⟨0, some 3, 1, ""⟩, ⟨3, some 10, 2, ""⟩])) = true :=
  ⟨by norm_num, by rfl,
    claim_C9.1 5 [⟨0, some 3, 1⟩, ⟨3, some 10, 2⟩] (by norm_num) (by rfl),
    by rfl,
    claim_C9.2 5 "June" [⟨0, some 3, 1, ""⟩, ⟨3, some 10, 2, ""⟩] (by norm_num) (by rfl)⟩

/-! ## Claim C10 -/

/-- C10, confirmed: `calculate_bill` in `bill_calculator.py` always
returns `projected = 1.02 × total` — a fixed 2% uplift applied to the
post-tax total — for every combination of inputs and rate rows, and the
stubbed `calculate_comparison_bill` of `bill_est_calculator.py` does the
same. -/
theorem claim_C10 :
    (∀ (usage demand pf tanacos : ℚ) (month : String)
        (serviceRows : List ℚ) (eflat : List BC.RangeRow) (etier : List BC.BTier)
        (etou : List BC.TRow) (dflat : List BC.RangeRow) (dtou : List BC.DTRow)
        (dstep : List BC.DStep) (dreact : List BC.RangeRow)
        (otherRows taxRows : List ℚ),
      (BC.calculate_bill usage demand pf tanacos month serviceRows eflat etier etou
          dflat dtou dstep dreact otherRows taxRows).projected =
        (102 / 100) *
          (BC.calculate_bill usage demand pf tanacos month serviceRows eflat etier etou
              dflat dtou dstep dreact otherRows taxRows).total) ∧
      BEC.calculate_comparison_bill.projected =
        (102 / 100) * BEC.calculate_comparison_bill.total := by
  constructor
  · intro usage demand pf tanacos month serviceRows eflat etier etou dflat dtou
      dstep dreact otherRows taxRows
    simp [BC.calculate_bill, mul_comm]
  · norm_num [BEC.calculate_comparison_bill]

end EVready
